import Mathlib

/-!
# Verification of the linagora.esn.chat conversation/message service

Shallow embedding of the backend conversation service
(`backend/lib/conversation.js`, provided as `src/unnamed/part_000`).

Modelling conventions:
* MongoDB ObjectIds and user/conversation ids are modelled as `String`
  (the `new ObjectId(hex)` / `ensureObjectId` conversions are the identity).
* The two Mongo collections are modelled as lists inside `ChatState`;
  `find?` returns the first match, mirroring `findOne` / `findById`.
* `findByIdAndUpdate` / `findOneAndUpdate` are called *without* `{new: true}`
  throughout the service (except the `moderate*` helpers, not modelled here),
  so the document handed to their callbacks is the *pre-update* document.
  The embedding reads the document before applying the update.
* Mongoose `populate` and `toJSON`/`toObject` do not change the fields the
  service reads afterwards; they are modelled as the identity.
* Pub/sub publication is fire-and-forget; where a claim is about a published
  payload the embedding returns the payload.
* A JavaScript `TypeError` (property access on `null`/`undefined`) is
  modelled as `JsError.typeError`; `throw new Error(msg)` as
  `JsError.jsError msg`.
-/

/-- Timestamps subdocument (only the creation date is read by the service). -/
structure Timestamps where
  creation : Nat := 0
deriving DecidableEq

/-- Conversation topic subdocument: `{value, creator, last_set}`. -/
structure Topic where
  value : String := ""
  creator : String := ""
  last_set : Nat := 0
deriving DecidableEq

/-- Denormalized `last_message` summary stored on a conversation. -/
structure LastMessage where
  text : String := ""
  date : Nat := 0
  creator : String := ""
  user_mentions : List String := []
deriving DecidableEq

/-- A `ChatConversation` document.  `numOfReadedMessage` is the Mongo
subdocument mapping user-id strings to read counters, modelled as an
association list (first binding wins, as Mongo field names are unique). -/
structure Conversation where
  _id : String
  type : String := ""
  name : Option String := none
  moderate : Bool := false
  members : List String := []
  creator : String := ""
  topic : Topic := {}
  last_message : LastMessage := {}
  numOfMessage : Nat := 0
  numOfReadedMessage : List (String × Nat) := []
  avatar : Option String := none
  timestamps : Timestamps := {}
deriving DecidableEq

/-- A `ChatMessage` document. -/
structure Message where
  _id : String := ""
  channel : String
  creator : String := ""
  text : String := ""
  user_mentions : List String := []
  moderate : Bool := false
  timestamps : Timestamps := {}
deriving DecidableEq

/-- The two document collections the service reads and writes. -/
structure ChatState where
  conversations : List Conversation := []
  messages : List Message := []
deriving DecidableEq

/-- Errors surfaced by the embedded operations. -/
inductive JsError where
  /-- `throw new Error(msg)` (the spec's ConfigurationError). -/
  | jsError : String → JsError
  /-- property access on `null`/`undefined`. -/
  | typeError : JsError
deriving DecidableEq

/-! ## Mention extraction (`parseMention`)

The source matches `message.text` against the global regex
`/@[a-fA-F0-9]{24}/g`, deduplicates the matched substrings with `_.uniq`
(which keeps first occurrences and maps `null` to `[]`), and strips the
leading `@`. -/

/-- The regex character class `[a-fA-F0-9]`. -/
def isJsHexDigit (c : Char) : Bool :=
  ('0' ≤ c && c ≤ '9') || ('a' ≤ c && c ≤ 'f') || ('A' ≤ c && c ≤ 'F')

/-- Match exactly `n` hex digits at the head of `l`; return them and the
rest of the input, or `none` if fewer than `n` hex digits are available. -/
def takeHex : Nat → List Char → Option (List Char × List Char)
  | 0, rest => some ([], rest)
  | _ + 1, [] => none
  | n + 1, c :: rest =>
    if isJsHexDigit c then
      (takeHex n rest).map (fun p => (c :: p.1, p.2))
    else
      none

theorem takeHex_length : ∀ (n : Nat) (l h r : List Char),
    takeHex n l = some (h, r) → r.length ≤ l.length := by
  intro n
  induction n with
  | zero =>
    intro l h r hl
    simp [takeHex] at hl
    cases hl.2
    exact Nat.le_refl _
  | succ n ih =>
    intro l h r hl
    cases l with
    | nil => simp [takeHex] at hl
    | cons c rest =>
      simp only [takeHex] at hl
      by_cases hc : isJsHexDigit c
      · simp only [hc, if_pos] at hl
        cases htk : takeHex n rest with
        | none => rw [htk] at hl; simp at hl
        | some p =>
          rw [htk] at hl
          obtain ⟨p1, p2⟩ := p
          simp at hl
          obtain ⟨h1, h2⟩ := hl
          subst h2
          have hlen := ih rest p1 p2 (by rw [htk])
          simp only [List.length_cons]
          exact Nat.le_trans hlen (Nat.le_succ _)
      · simp [hc] at hl

/-- One left-to-right scan of the regex engine: at an `@`, try to consume
exactly 24 hex digits; on success emit the matched text (including the `@`)
and resume after it, otherwise resume at the next character.  `fuel` is an
upper bound on the number of steps; every recursive call consumes at least
one input character, so `fuel = l.length` never runs out. -/
def mentionAux : Nat → List Char → List String
  | 0, _ => []
  | _ + 1, [] => []
  | fuel + 1, c :: rest =>
    if c = '@' then
      match takeHex 24 rest with
      | some (h, r) => String.mk ('@' :: h) :: mentionAux fuel r
      | none => mentionAux fuel rest
    else
      mentionAux fuel rest

/-- All matches of `/@[a-fA-F0-9]{24}/g` in `text`, in textual order. -/
def mentionOccurrences (text : String) : List String :=
  mentionAux text.data.length text.data

/-- `text.match(regex)`: `null` (here `none`) when there is no match. -/
def jsMatchMentions (text : String) : Option (List String) :=
  let l := mentionOccurrences text
  if l.isEmpty then none else some l

/-- First-occurrence deduplication with an accumulator of already-seen
elements; `uniqFirst` below agrees with lodash `_.uniq` on lists. -/
def uniqFirstAux (seen : List String) : List String → List String
  | [] => []
  | a :: l =>
    if seen.contains a then uniqFirstAux seen l
    else a :: uniqFirstAux (a :: seen) l

/-- lodash `_.uniq` restricted to lists: keep the first occurrence of each
element. -/
def uniqFirst (l : List String) : List String := uniqFirstAux [] l

/-- lodash `_.uniq` as called in `parseMention`: its argument is the result
of `String.prototype.match`, which is `null` when nothing matched, and
`_.uniq(null)` is `[]`. -/
def lodashUniq : Option (List String) → List String
  | none => []
  | some l => uniqFirst l

/-- `mention.replace(/^@/, '')`: strip one leading `@` if present. -/
def stripAt (s : String) : String :=
  match s.data with
  | '@' :: rest => String.mk rest
  | _ => s

/-- `parseMention`: the `user_mentions` computed from a message text.
`new ObjectId(hex)` is modelled as the hex string itself. -/
def parseMention (text : String) : List String :=
  (lodashUniq (jsMatchMentions text)).map stripAt

theorem parseMention_eq (text : String) :
    parseMention text = (uniqFirst (mentionOccurrences text)).map stripAt := by
  unfold parseMention jsMatchMentions lodashUniq
  by_cases h : (mentionOccurrences text).isEmpty
  · have : mentionOccurrences text = [] := List.isEmpty_iff.mp h
    simp [h, this, uniqFirst, uniqFirstAux]
  · simp [h]

theorem uniqFirstAux_cons_mem {a : String} {seen : List String}
    (hmem : a ∈ seen) (l : List String) :
    uniqFirstAux seen (a :: l) = uniqFirstAux seen l := by
  simp [uniqFirstAux, hmem]

theorem uniqFirstAux_cons_not_mem {a : String} {seen : List String}
    (hmem : a ∉ seen) (l : List String) :
    uniqFirstAux seen (a :: l) = a :: uniqFirstAux (a :: seen) l := by
  simp [uniqFirstAux, hmem]

theorem mem_uniqFirstAux (x : String) :
    ∀ (l seen : List String), x ∈ uniqFirstAux seen l ↔ x ∈ l ∧ x ∉ seen := by
  intro l
  induction l with
  | nil => intro seen; simp [uniqFirstAux]
  | cons a l ih =>
    intro seen
    by_cases ha : a ∈ seen
    · rw [uniqFirstAux_cons_mem ha, ih seen]
      simp only [List.mem_cons]
      constructor
      · rintro ⟨hx, hns⟩; exact ⟨Or.inr hx, hns⟩
      · rintro ⟨rfl | hx, hns⟩
        · exact absurd ha hns
        · exact ⟨hx, hns⟩
    · rw [uniqFirstAux_cons_not_mem ha]
      simp only [List.mem_cons, ih (a :: seen)]
      constructor
      · rintro (rfl | ⟨hx, hns⟩)
        · exact ⟨Or.inl rfl, ha⟩
        · exact ⟨Or.inr hx, fun hs => hns (Or.inr hs)⟩
      · rintro ⟨hx | hx, hns⟩
        · exact Or.inl hx
        · by_cases hxa : x = a
          · exact Or.inl hxa
          · exact Or.inr ⟨hx, fun hs => hs.elim hxa hns⟩

theorem mem_uniqFirst (x : String) (l : List String) :
    x ∈ uniqFirst l ↔ x ∈ l := by
  unfold uniqFirst
  rw [mem_uniqFirstAux]
  simp

theorem nodup_uniqFirstAux : ∀ (l seen : List String),
    (uniqFirstAux seen l).Nodup := by
  intro l
  induction l with
  | nil => intro seen; simp [uniqFirstAux]
  | cons a l ih =>
    intro seen
    by_cases ha : a ∈ seen
    · rw [uniqFirstAux_cons_mem ha]; exact ih seen
    · rw [uniqFirstAux_cons_not_mem ha]
      refine List.nodup_cons.mpr ⟨fun hm => ?_, ih (a :: seen)⟩
      have := (mem_uniqFirstAux a l (a :: seen)).mp hm
      exact this.2 (List.mem_cons_self a seen)

theorem nodup_uniqFirst (l : List String) : (uniqFirst l).Nodup :=
  nodup_uniqFirstAux l []

/-! ## JavaScript values

`makeAllMessageReadedForAnUserHelper` receives a duck-typed `userIds`
argument: an array, a single id, or (through the buggy call sites in
`updateConversation`) the JS value `undefined`.  A tiny universe of
JavaScript values keeps the data flow of those call sites faithful. -/

inductive JsVal where
  | undefined : JsVal
  | str : String → JsVal
  | arr : List JsVal → JsVal
  | obj : List (String × JsVal) → JsVal

/-- JS `String(v)` for the values this service passes around.  Arrays are
joined with commas (only flat arrays of id strings occur here). -/
def jsToString : JsVal → String
  | .undefined => "undefined"
  | .str s => s
  | .obj _ => "[object Object]"
  | .arr l => String.intercalate ","
      (l.map (fun v => match v with
        | .str s => s
        | .undefined => "undefined"
        | _ => ""))

/-- JS property read `v[k]` on an object (`undefined` when the key is
absent).  The service only reads properties of object literals. -/
def JsVal.getField : JsVal → String → JsVal
  | .obj fs, k => match fs.lookup k with | some v => v | none => .undefined
  | _, _ => .undefined

/-- Decode a JS array of id values into id strings (used for the ids Mongo
reads under `$addToSet: {members: {$each: ids}}`). -/
def jsIds : JsVal → List String
  | .arr l => l.map jsToString
  | _ => []

/-! ## Mongo subdocument and update-operator primitives -/

/-- Read a field of the `numOfReadedMessage` subdocument; a missing field
reads as 0 (the service only ever compares and `$max`es these values). -/
def lookupD (k : String) : List (String × Nat) → Nat
  | [] => 0
  | (k', v) :: rest => if k' = k then v else lookupD k rest

/-- Mongo `$max` on a single field of a subdocument: raise the field to at
least `n`, creating it when absent. -/
def assocSetMax (k : String) (n : Nat) : List (String × Nat) → List (String × Nat)
  | [] => [(k, n)]
  | (k', v) :: rest =>
    if k' = k then (k', max v n) :: rest else (k', v) :: assocSetMax k n rest

/-- Apply `$max` with the same value `n` to each field named in `keys`
(the `updateMaxOperation` object built by the helper). -/
def applyMax : List String → Nat → List (String × Nat) → List (String × Nat)
  | [], _, m => m
  | k :: ks, n, m => applyMax ks n (assocSetMax k n m)

theorem lookupD_assocSetMax_self (k : String) (n : Nat) :
    ∀ m : List (String × Nat), lookupD k (assocSetMax k n m) = max (lookupD k m) n := by
  intro m
  induction m with
  | nil => simp [assocSetMax, lookupD]
  | cons kv rest ih =>
    obtain ⟨k', v⟩ := kv
    by_cases hk : k' = k
    · simp [assocSetMax, lookupD, hk]
    · simp [assocSetMax, lookupD, hk, ih]

theorem lookupD_assocSetMax_ne (k u : String) (n : Nat) (hu : u ≠ k) :
    ∀ m : List (String × Nat), lookupD u (assocSetMax k n m) = lookupD u m := by
  intro m
  induction m with
  | nil =>
    simp only [assocSetMax, lookupD]
    rw [if_neg (fun h => hu h.symm)]
  | cons kv rest ih =>
    obtain ⟨k', v⟩ := kv
    by_cases hk : k' = k
    · have h1 : assocSetMax k n ((k', v) :: rest) = (k', max v n) :: rest := by
        simp [assocSetMax, hk]
      rw [h1]
      have hne : k' ≠ u := by rw [hk]; exact fun h => hu h.symm
      simp [lookupD, hne]
    · have h1 : assocSetMax k n ((k', v) :: rest) = (k', v) :: assocSetMax k n rest := by
        simp [assocSetMax, hk]
      rw [h1]
      by_cases hku : k' = u
      · simp [lookupD, hku]
      · simp [lookupD, hku, ih]

theorem lookupD_applyMax (u : String) :
    ∀ (keys : List String) (n : Nat) (m : List (String × Nat)),
      lookupD u (applyMax keys n m) =
        if u ∈ keys then max (lookupD u m) n else lookupD u m := by
  intro keys
  induction keys with
  | nil => intro n m; simp [applyMax]
  | cons k ks ih =>
    intro n m
    simp only [applyMax, ih]
    by_cases hu : u = k
    · subst hu
      by_cases hks : u ∈ ks
      · simp [hks, lookupD_assocSetMax_self, Nat.max_assoc]
      · simp [hks, lookupD_assocSetMax_self]
    · by_cases hks : u ∈ ks
      · simp [hks, hu, lookupD_assocSetMax_ne k u _ hu]
      · simp [hks, hu, lookupD_assocSetMax_ne k u _ hu]

/-- Every value stored by `assocSetMax` is bounded by the old bound and `n`. -/
theorem mem_assocSetMax_le (k : String) (n B : Nat) :
    ∀ m : List (String × Nat), (∀ kv ∈ m, kv.2 ≤ B) → n ≤ B →
      ∀ kv ∈ assocSetMax k n m, kv.2 ≤ B := by
  intro m
  induction m with
  | nil =>
    intro _ hn kv hkv
    simp [assocSetMax] at hkv
    subst hkv
    exact hn
  | cons kv0 rest ih =>
    intro hb hn kv hkv
    obtain ⟨k', v⟩ := kv0
    by_cases hk : k' = k
    · simp only [assocSetMax, hk, if_pos] at hkv
      rcases List.mem_cons.mp hkv with h | h
      · have hv : v ≤ B := hb (k', v) (List.mem_cons_self _ _)
        simp [h, Nat.max_le, hv, hn]
      · exact hb kv (List.mem_cons_of_mem _ h)
    · simp only [assocSetMax, hk, if_neg, ite_false] at hkv
      rcases List.mem_cons.mp hkv with h | h
      · exact h ▸ hb (k', v) (List.mem_cons_self _ _)
      · exact ih (fun kv' hm => hb kv' (List.mem_cons_of_mem _ hm)) hn kv h

theorem mem_applyMax_le (B : Nat) :
    ∀ (keys : List String) (n : Nat) (m : List (String × Nat)),
      (∀ kv ∈ m, kv.2 ≤ B) → n ≤ B →
      ∀ kv ∈ applyMax keys n m, kv.2 ≤ B := by
  intro keys
  induction keys with
  | nil => intro n m hb _ kv hkv; exact hb kv hkv
  | cons k ks ih =>
    intro n m hb hn kv hkv
    exact ih n (assocSetMax k n m) (mem_assocSetMax_le k n B m hb hn) hn kv hkv

/-! ## Store primitives over collections -/

/-- Replace the first element satisfying `p` with its `f`-image (the effect
of a Mongo `findOneAndUpdate`/`findByIdAndUpdate` on the collection). -/
def updateWhere {α : Type} (p : α → Bool) (f : α → α) : List α → List α
  | [] => []
  | c :: rest => if p c then f c :: rest else c :: updateWhere p f rest

/-- Remove the first element satisfying `p` (Mongo `findOneAndRemove`). -/
def removeWhere {α : Type} (p : α → Bool) : List α → List α
  | [] => []
  | c :: rest => if p c then rest else c :: removeWhere p rest

theorem find?_updateWhere {α : Type} (p : α → Bool) (f : α → α)
    (hf : ∀ x, p x = true → p (f x) = true) :
    ∀ l : List α, (updateWhere p f l).find? p = (l.find? p).map f := by
  intro l
  induction l with
  | nil => simp [updateWhere]
  | cons c rest ih =>
    by_cases hpc : p c
    · simp [updateWhere, hpc, List.find?_cons_of_pos, hf c hpc]
    · simp only [updateWhere, hpc, Bool.false_eq_true, if_neg, not_false_iff]
      rw [List.find?_cons_of_neg _ (by simp [hpc]),
        List.find?_cons_of_neg _ (by simp [hpc]), ih]

theorem mem_updateWhere_find? {α : Type} {p : α → Bool} {f : α → α}
    {c0 x : α} :
    ∀ {l : List α}, l.find? p = some c0 → x ∈ updateWhere p f l →
      x ∈ l ∨ x = f c0 := by
  intro l
  induction l with
  | nil => intro h; simp at h
  | cons c rest ih =>
    intro hfind hx
    by_cases hpc : p c
    · rw [List.find?_cons_of_pos _ hpc] at hfind
      have hc0 : c0 = c := by cases hfind; rfl
      subst hc0
      simp only [updateWhere, hpc, if_pos] at hx
      rcases List.mem_cons.mp hx with h | h
      · exact Or.inr h
      · exact Or.inl (List.mem_cons_of_mem _ h)
    · rw [List.find?_cons_of_neg _ (by simp [hpc])] at hfind
      simp only [updateWhere, hpc, Bool.false_eq_true, if_neg, not_false_iff] at hx
      rcases List.mem_cons.mp hx with h | h
      · exact Or.inl (h ▸ List.mem_cons_self _ _)
      · rcases ih hfind h with h' | h'
        · exact Or.inl (List.mem_cons_of_mem _ h')
        · exact Or.inr h'

/-! ## The conversation service -/

/-- `getConversation` / `Conversation.findById`: the first document with the
given id (its `populate('members')` is the identity here). -/
def getConversation (cid : String) (st : ChatState) : Option Conversation :=
  st.conversations.find? (fun c => c._id == cid)

/-- The collection effect of a `findByIdAndUpdate(cid, update)`: apply the
update to the first document with the given id. -/
def updateConvState (cid : String) (f : Conversation → Conversation)
    (st : ChatState) : ChatState :=
  { st with conversations := updateWhere (fun c => c._id == cid) f st.conversations }

/-- Read counter of user `u` on conversation `c` (missing entry reads 0). -/
def readedOf (c : Conversation) (u : String) : Nat :=
  lookupD u c.numOfReadedMessage

/-- The counter fields touched by the helper's `updateMaxOperation` object:
`userIds = _.isArray(userIds) ? userIds : [userIds]`, then one
`numOfReadedMessage.<String(userId)>` key per entry. -/
def jsUserIdKeys (userIds : JsVal) : List String :=
  (match userIds with | .arr l => l | v => [v]).map jsToString

/-- `makeAllMessageReadedForAnUserHelper(userIds, conversation, callback)`
(source lines 400-411): normalize `userIds` with `_.isArray`, build the
`updateMaxOperation` object with one `numOfReadedMessage.<String(userId)>`
entry per id, and issue `findByIdAndUpdate(conversation._id, {$max: ...})`.
When `conversation` is `null`/`undefined`, reading `conversation.numOfMessage`
throws a `TypeError`.  The `$max` value is `conversation.numOfMessage`, read
from the document *given to the helper*, not from the stored document; the
callback receives the pre-update stored document. -/
def makeAllMessageReadedForAnUserHelper (userIds : JsVal)
    (conversation : Option Conversation) (st : ChatState) :
    ChatState × Except JsError (Option Conversation) :=
  match conversation with
  | none => (st, .error .typeError)
  | some c =>
    let keys : List String := jsUserIdKeys userIds
    (updateConvState c._id
      (fun conv => { conv with
        numOfReadedMessage := applyMax keys c.numOfMessage conv.numOfReadedMessage })
      st,
     .ok (getConversation c._id st))

/-- `makeAllMessageReadedForAnUser(userId, conversationId, callback)` — the
service operation behind markAllMessagesAsRead: `findOne({_id})`, then run
the helper on the fetched conversation. -/
def makeAllMessageReadedForAnUser (userIds : JsVal) (conversationId : String)
    (st : ChatState) : ChatState × Except JsError (Option Conversation) :=
  makeAllMessageReadedForAnUserHelper userIds (getConversation conversationId st) st

/-- The `ChatMessage` persisted by `createMessage`: `parseMention` sets
`message.user_mentions` before `new ChatMessage(message)` is saved. -/
def savedMessage (m : Message) : Message :=
  { m with user_mentions := parseMention m.text }

/-- The Mongo update `{$set: {last_message: {...}}, $inc: {numOfMessage: 1}}`
issued by `createMessage` for the saved message `m1`. -/
def summaryUpdate (m1 : Message) (conv : Conversation) : Conversation :=
  { conv with
    last_message :=
      { text := m1.text, date := m1.timestamps.creation,
        creator := m1.creator, user_mentions := m1.user_mentions },
    numOfMessage := conv.numOfMessage + 1 }

/-- The tail of the `createMessage` waterfall, from the summary
`findByIdAndUpdate` callback onwards; `conv?` is the (pre-update) document
that callback received — `null` when the id matched nothing, in which case
the read-counter helper crashes on `conversation.numOfMessage`. -/
def createMessageFound (m1 : Message) (conv? : Option Conversation)
    (st1 : ChatState) : ChatState × Except JsError Message :=
  match conv? with
  | none => (st1, .error .typeError)
  | some c =>
    let st2 := updateConvState m1.channel (summaryUpdate m1) st1
    match makeAllMessageReadedForAnUserHelper (.str m1.creator) (some c) st2 with
    | (st3, .error e) => (st3, .error e)
    | (st3, .ok _) => (st3, .ok m1)

/-- `createMessage(message, callback)` (source lines 423-463): save the
message, `findByIdAndUpdate` the owning conversation with
`$set: {last_message}` and `$inc: {numOfMessage: 1}`, then mark the message
read for its creator via the helper (called with the *pre-update* document
returned by `findByIdAndUpdate`), then populate and return the message.

`updateFails` injects a store error into that `findByIdAndUpdate`; the
source only logs it and continues the waterfall with an undefined
`conversation`, which makes the helper throw a `TypeError` — the persisted
message is not rolled back. -/
def createMessage (updateFails : Bool) (m : Message) (st : ChatState) :
    ChatState × Except JsError Message :=
  let m1 := savedMessage m
  let st1 := { st with messages := st.messages ++ [m1] }
  if updateFails then
    (st1, .error .typeError)
  else
    createMessageFound m1 (getConversation m1.channel st1) st1

/-- `addMemberToConversation(conversationId, userId, callback)` (source
lines 469-482): `findByIdAndUpdate` with `$addToSet: {members}`, then the
helper on the *pre-update* document (and a fire-and-forget publish). -/
def addMemberToConversation (conversationId userId : String) (st : ChatState) :
    ChatState × Except JsError (Option Conversation) :=
  match getConversation conversationId st with
  | none =>
    -- conversation is null: the helper throws before anything is published
    (st, .error .typeError)
  | some c =>
    let st1 := updateConvState conversationId
      (fun conv => { conv with
        members := if conv.members.contains userId then conv.members
          else conv.members ++ [userId] }) st
    makeAllMessageReadedForAnUserHelper (.str userId) (some c) st1

/-- `deleteConversation(userId, channel, callback)` (source lines 214-225):
`findOneAndRemove({_id: channel, members: userId})` — membership is the
authorization filter — then, whatever that removal matched, publish the
(possibly null) result and run `ChatMessage.remove({channel: channel})`.
Returns the new state and the removed document (`none` when nothing
matched; the operation itself reports no error either way). -/
def deleteConversation (userId channel : String) (st : ChatState) :
    ChatState × Option Conversation :=
  let isTarget := fun (c : Conversation) => c._id == channel && c.members.contains userId
  ({ conversations := removeWhere isTarget st.conversations,
     messages := st.messages.filter (fun msg => !(msg.channel == channel)) },
   st.conversations.find? isTarget)

/-- The synthetic `channel:topic` system message published by `updateTopic`. -/
structure TopicMessage where
  type : String
  subtype : String
  date : Nat
  channel : String
  user : String
  topic : Topic
  text : String
deriving DecidableEq

/-- `updateTopic(conversationId, topic, callback)` (source lines 652-679);
`now` stands for `Date.now()`.  The `findByIdAndUpdate` carries no
`{new: true}`, so `conversation` in its callback is the *pre-update*
document, and the published message's `topic` fields are read from it;
only the message `text` interpolates the caller's `topic.value`.  When the
conversation does not exist, reading `conversation._id` throws. -/
def updateTopic (now : Nat) (conversationId : String) (topic : Topic)
    (st : ChatState) :
    ChatState × Option TopicMessage × Except JsError (Option Conversation) :=
  match getConversation conversationId st with
  | none => (st, none, .error .typeError)
  | some c =>
    let st1 := updateConvState conversationId
      (fun conv => { conv with topic :=
        { value := topic.value, creator := topic.creator,
          last_set := topic.last_set } }) st
    let message : TopicMessage :=
      { type := "text", subtype := "channel:topic", date := now,
        channel := c._id, user := topic.creator,
        topic :=
          { value := c.topic.value, creator := c.topic.creator,
            last_set := c.topic.last_set },
        text := "set the channel topic: " ++ topic.value }
    (st1, some message, .ok (some c))

/-- The duck-typed `query` argument of `getMessages`. -/
structure MessagesQuery where
  moderate : Bool := false
  limit : Option Nat := none
  offset : Option Nat := none
deriving DecidableEq

/-- `+query.limit || 20` (an explicit 0 also falls back to 20). -/
def jsLimit (q : MessagesQuery) : Nat :=
  match q.limit with
  | some n => if n = 0 then 20 else n
  | none => 20

/-- `+query.offset || 0`. -/
def jsOffset (q : MessagesQuery) : Nat :=
  match q.offset with
  | some n => n
  | none => 0

/-- Mongo sort `-timestamps.creation` (newest first). -/
def msgNewerFirst (a b : Message) : Prop :=
  b.timestamps.creation ≤ a.timestamps.creation

/-- Chronological order (oldest first). -/
def msgChrono (a b : Message) : Prop :=
  a.timestamps.creation ≤ b.timestamps.creation

instance : DecidableRel msgNewerFirst := fun _ _ => Nat.decLe _ _

instance : IsTotal Message msgNewerFirst := ⟨fun _ _ => Nat.le_total _ _⟩

instance : IsTrans Message msgNewerFirst := ⟨fun _ _ _ h1 h2 => Nat.le_trans h2 h1⟩

/-- `getMessages(conversation, query, callback)` (source lines 627-650).
The Mongo filter is the literal `{channel: conversationId, moderate: false}`
— the `query.moderate` defaulting done just above it in the source is dead
code, `query.moderate` is never read again — then sort newest first, skip
`offset`, take `limit`, and reverse the fetched page before returning. -/
def getMessages (conversationId : String) (query : MessagesQuery)
    (st : ChatState) : List Message :=
  let q := fun (msg : Message) =>
    msg.channel == conversationId && msg.moderate == false
  ((((st.messages.filter q).insertionSort msgNewerFirst).drop
    (jsOffset query)).take (jsLimit query)).reverse

/-- The caller-supplied delta for `updateConversation`. -/
structure ConvModifications where
  newMembers : Option (List String) := none
  deleteMembers : Option (List String) := none
  name : Option String := none
  avatar : Option String := none
deriving DecidableEq

/-- `modifications.newMembers && modifications.newMembers.length`. -/
def hasNewMembers (mods : ConvModifications) : Bool :=
  match mods.newMembers with
  | some l => !l.isEmpty
  | none => false

/-- `modifications.deleteMembers && modifications.deleteMembers.length`. -/
def hasDeleteMembers (mods : ConvModifications) : Bool :=
  match mods.deleteMembers with
  | some l => !l.isEmpty
  | none => false

/-- Mongo `$addToSet: {members: {$each: ids}}`: append the ids that are not
yet present. -/
def applyAddToSet (ids : List String) (members : List String) : List String :=
  ids.foldl (fun ms i => if ms.contains i then ms else ms ++ [i]) members

/-- Mongo `$pullAll: {members: ids}`. -/
def applyPullAll (ids : List String) (members : List String) : List String :=
  members.filter (fun m => !ids.contains m)

/-- The `$set` part built from `modifications.name` / `modifications.avatar`
(JS truthiness: an empty string does not count). -/
def applySetFields (mods : ConvModifications) (c : Conversation) : Conversation :=
  let c1 := match mods.name with
    | some n => if n = "" then c else { c with name := some n }
    | none => c
  match mods.avatar with
  | some a => if a = "" then c1 else { c1 with avatar := some a }
  | none => c1

/-- The object literal `{members: {$each: newMembers.map(ensureObjectId)}}`
assigned to `mongoModifications.$addToSet` (and, when both member operations
are requested, moved to `nextMongoModification.$addToSet`). -/
def addToSetValue (mods : ConvModifications) : JsVal :=
  .obj [("members", .obj [("$each", .arr ((mods.newMembers.getD []).map .str))])]

/-- The id list Mongo reads under the `members.$each` path of the
`$addToSet` value. -/
def addToSetIds (mods : ConvModifications) : List String :=
  jsIds (((addToSetValue mods).getField "members").getField "$each")

/-- The `$pullAll` part of the first `findOneAndUpdate` issued by
`updateConversation`. -/
def pullWrite (mods : ConvModifications) (c : Conversation) : Conversation :=
  if hasDeleteMembers mods then
    { c with members := applyPullAll (mods.deleteMembers.getD []) c.members }
  else
    c

/-- The `$addToSet` part of the first `findOneAndUpdate` — present there
only when it was not split off into `nextMongoModification` (i.e. when no
removal was requested alongside). -/
def addWrite (mods : ConvModifications) (c : Conversation) : Conversation :=
  if hasNewMembers mods && !(hasNewMembers mods && hasDeleteMembers mods) then
    { c with members := applyAddToSet (addToSetIds mods) c.members }
  else
    c

/-- The full update applied by the first `findOneAndUpdate` of
`updateConversation` (`$pullAll`, possibly `$addToSet`, and `$set`). -/
def firstWrite (mods : ConvModifications) (c : Conversation) : Conversation :=
  applySetFields mods (addWrite mods (pullWrite mods c))

/-- The `$addToSet`-only update of the second `findOneAndUpdate` (issued
only when both member operations were requested). -/
def secondWrite (mods : ConvModifications) (c : Conversation) : Conversation :=
  { c with members := applyAddToSet (addToSetIds mods) c.members }

/-- The `done(callback, err, conversation)` continuation of
`updateConversation`: `conversation.toObject()` throws on a null document;
otherwise populate (identity), publish (fire and forget) and, when new
members were requested, call the read-counter helper with
`(nextMongoModification || mongoModifications).$addToSet.$each` — which is
JS `undefined`, because the ids actually live under
`.$addToSet.members.$each` — so the helper ends up maxing the single
counter field named `"undefined"`. -/
def updateConversationDone (mods : ConvModifications)
    (conv? : Option Conversation) (st1 : ChatState) :
    ChatState × Except JsError (Option Conversation) :=
  match conv? with
  | none => (st1, .error .typeError)
  | some conv =>
    if hasNewMembers mods then
      makeAllMessageReadedForAnUserHelper
        ((addToSetValue mods).getField "$each") (some conv) st1
    else
      (st1, .ok (some conv))

/-- `updateConversation(conversationId, modifications, callback)` (source
lines 519-587).  When member addition and removal are both requested they
cannot go in one Mongo update, so `$addToSet` is split off into
`nextMongoModification` and applied by a second `findOneAndUpdate`; `done`
then receives the *pre-last-write* document (no `{new: true}`). -/
def updateConversation (conversationId : String) (mods : ConvModifications)
    (st : ChatState) : ChatState × Except JsError (Option Conversation) :=
  match getConversation conversationId st with
  | none =>
    -- the write(s) match nothing and `done` runs on a null document
    updateConversationDone mods none st
  | some c =>
    if hasNewMembers mods && hasDeleteMembers mods then
      updateConversationDone mods
        (getConversation conversationId
          (updateConvState conversationId (firstWrite mods) st))
        (updateConvState conversationId (secondWrite mods)
          (updateConvState conversationId (firstWrite mods) st))
    else
      updateConversationDone mods (some c)
        (updateConvState conversationId (firstWrite mods) st)

/-! ## `findConversation` -/

/-- Modelled from the spec: the channel conversation type constant of
`lib/constants` (the constants file is not among the provided sources; the
spec's glossary defines "channel" as the openly joinable type).  Its exact
value does not affect the claims below. -/
def CHANNEL_TYPE : String := "channel"

/-- `options.name` is tri-state: undefined, null, or a string. -/
inductive JsNameOpt where
  | undefined : JsNameOpt
  | null : JsNameOpt
  | str : String → JsNameOpt
deriving DecidableEq

/-- The options of `findConversation`; `options.type` is normalized to a
list (the source wraps a plain string as `[type]`). -/
structure FindOptions where
  type : Option (List String) := none
  ignoreMemberFilterForChannel : Bool := false
  exactMembersMatch : Bool := false
  members : Option (List String) := none
  name : JsNameOpt := .undefined
  moderate : Bool := false
deriving DecidableEq

/-- The Mongo request object built by `findConversation` (one field per
conjunct the source sets). -/
structure MongoConvQuery where
  moderate : Option Bool := none
  membersAll : Option (List String) := none
  membersSize : Option Nat := none
  typeIn : Option (List String) := none
  nameEq : Option String := none
  nameAbsent : Bool := false
deriving DecidableEq

/-- The final request: either the plain query object, or the
`{$or: [query, {type: channel}], moderate}` wrapper. -/
inductive ConvRequest where
  | plain : MongoConvQuery → ConvRequest
  | orChannel : MongoConvQuery → Bool → ConvRequest
deriving DecidableEq

/-- The base `request` object assembled field by field in the source
(moderate, members `$all`, type `$in`, name — with JS truthiness, so an
empty-string name sets no filter). -/
def baseFindQuery (o : FindOptions) : MongoConvQuery :=
  { moderate := some o.moderate,
    membersAll := o.members,
    typeIn := o.type,
    nameEq := match o.name with
      | .str s => if s = "" then none else some s
      | _ => none,
    nameAbsent := o.name == JsNameOpt.null }

/-- Build the request exactly as the source does.  The two synchronous
`throw new Error(...)` checks come first, before any store access.  In the
wrapped (`$or`) case with `exactMembersMatch`, the source then assigns
`request.members.$size` — but the wrapped request object has no `members`
property, so this is a property write on `undefined`: a `TypeError`, again
before any store access. -/
def buildFindRequest (o : FindOptions) : Except JsError ConvRequest :=
  if o.exactMembersMatch && o.members.isNone then
    .error (.jsError "Could not set exactMembersMatch to true without providing members")
  else if o.ignoreMemberFilterForChannel && o.members.isNone then
    .error (.jsError "Could not set ignoreMemberFilterForChannel to true without providing members")
  else
    if o.ignoreMemberFilterForChannel &&
        (o.type.isNone || (o.type.getD []).contains CHANNEL_TYPE) then
      if o.exactMembersMatch then
        .error .typeError
      else
        .ok (.orChannel { baseFindQuery o with moderate := none } o.moderate)
    else
      if o.exactMembersMatch then
        .ok (.plain { baseFindQuery o with
          membersSize := some (o.members.getD []).length })
      else
        .ok (.plain (baseFindQuery o))

/-- Whether a conversation document matches the query object (Mongo's
`$all: []` matches no documents). -/
def evalQuery (q : MongoConvQuery) (c : Conversation) : Bool :=
  (match q.moderate with | some b => c.moderate == b | none => true) &&
  (match q.membersAll with
    | some ms => !ms.isEmpty && ms.all (fun m => c.members.contains m)
    | none => true) &&
  (match q.membersSize with | some n => c.members.length == n | none => true) &&
  (match q.typeIn with | some ts => ts.contains c.type | none => true) &&
  (match q.nameEq with | some s => c.name == some s | none => true) &&
  (!q.nameAbsent || c.name.isNone)

/-- Whether a conversation document matches the final request. -/
def evalRequest : ConvRequest → Conversation → Bool
  | .plain q, c => evalQuery q c
  | .orChannel q moderate, c =>
    (evalQuery q c || c.type == CHANNEL_TYPE) && c.moderate == moderate

/-- Mongo sort `-last_message.date` (most recent message first). -/
def convNewerFirst (a b : Conversation) : Prop :=
  b.last_message.date ≤ a.last_message.date

instance : DecidableRel convNewerFirst := fun _ _ => Nat.decLe _ _

/-- `findConversation(options, callback)` (source lines 237-290): build the
request synchronously (possibly throwing), then filter and sort the
collection. -/
def findConversation (o : FindOptions) (st : ChatState) :
    Except JsError (List Conversation) :=
  match buildFindRequest o with
  | .error e => .error e
  | .ok req =>
    .ok (List.insertionSort convNewerFirst (st.conversations.filter (evalRequest req)))

/-! ## Invariants -/

/-- The spec's data-model invariant on one document: every member's read
counter is at most the message count. -/
def convInvariant (c : Conversation) : Prop :=
  ∀ u ∈ c.members, readedOf c u ≤ c.numOfMessage

instance (c : Conversation) : Decidable (convInvariant c) :=
  inferInstanceAs (Decidable (∀ u ∈ c.members, readedOf c u ≤ c.numOfMessage))

/-- The spec's data-model invariant over the whole store. -/
def stateInvariant (st : ChatState) : Prop :=
  ∀ c ∈ st.conversations, convInvariant c

instance (st : ChatState) : Decidable (stateInvariant st) :=
  inferInstanceAs (Decidable (∀ c ∈ st.conversations, convInvariant c))

/-- The strengthened (inductive) invariant on one document: every entry of
the `numOfReadedMessage` subdocument — member or not — is at most the
message count. -/
def convInvariantAll (c : Conversation) : Prop :=
  ∀ kv ∈ c.numOfReadedMessage, kv.2 ≤ c.numOfMessage

instance (c : Conversation) : Decidable (convInvariantAll c) :=
  inferInstanceAs (Decidable (∀ kv ∈ c.numOfReadedMessage, kv.2 ≤ c.numOfMessage))

/-- The strengthened invariant over the whole store. -/
def stateInvariantAll (st : ChatState) : Prop :=
  ∀ c ∈ st.conversations, convInvariantAll c

instance (st : ChatState) : Decidable (stateInvariantAll st) :=
  inferInstanceAs (Decidable (∀ c ∈ st.conversations, convInvariantAll c))

/-! ## Theorems about mention extraction (claims C9 and C10) -/

theorem mentionAux_head : ∀ (fuel : Nat) (l : List Char) (s : String),
    s ∈ mentionAux fuel l → ∃ h : List Char, s = String.mk ('@' :: h) := by
  intro fuel
  induction fuel with
  | zero => intro l s hs; simp [mentionAux] at hs
  | succ fuel ih =>
    intro l s hs
    cases l with
    | nil => simp [mentionAux] at hs
    | cons c rest =>
      simp only [mentionAux] at hs
      split at hs
      · split at hs
        · rename_i h r heq
          rcases List.mem_cons.mp hs with h1 | h1
          · exact ⟨h, h1⟩
          · exact ih r s h1
        · exact ih rest s hs
      · exact ih rest s hs

theorem mentionOccurrences_head (t : String) (s : String)
    (hs : s ∈ mentionOccurrences t) : ∃ h : List Char, s = String.mk ('@' :: h) :=
  mentionAux_head t.data.length t.data s hs

theorem mem_parseMention (t : String) (id : String) :
    id ∈ parseMention t ↔ String.mk ('@' :: id.data) ∈ mentionOccurrences t := by
  rw [parseMention_eq]
  constructor
  · intro hid
    rcases List.mem_map.mp hid with ⟨s, hs, hstrip⟩
    have hs' := (mem_uniqFirst s _).mp hs
    rcases mentionOccurrences_head t s hs' with ⟨h, rfl⟩
    have hred : stripAt (String.mk ('@' :: h)) = String.mk h := rfl
    rw [hred] at hstrip
    subst hstrip
    exact hs'
  · intro hmem
    apply List.mem_map.mpr
    refine ⟨String.mk ('@' :: id.data), (mem_uniqFirst _ _).mpr hmem, ?_⟩
    show stripAt (String.mk ('@' :: id.data)) = id
    cases id with
    | mk data => rfl

theorem nodup_parseMention (t : String) : (parseMention t).Nodup := by
  rw [parseMention_eq]
  apply List.Nodup.map_on
  · intro x hx y hy hxy
    have hx' := (mem_uniqFirst x _).mp hx
    have hy' := (mem_uniqFirst y _).mp hy
    rcases mentionOccurrences_head t x hx' with ⟨hx1, rfl⟩
    rcases mentionOccurrences_head t y hy' with ⟨hy1, rfl⟩
    have heq : String.mk hx1 = String.mk hy1 := hxy
    injection heq with heq2
    rw [heq2]
  · exact nodup_uniqFirst _

/-- **C9.** Mention extraction is idempotent and order-insensitive: for
every message text, `user_mentions` is the deduplicated set of identifiers
matching `@` followed by a 24-character hex identifier — `parseMention`
returns a duplicate-free list; an identifier is listed iff its `@`-match
occurs in the text, so a text containing the same identifier twice yields
it exactly once; and two texts whose match occurrences are permutations of
one another yield the same set of mentions. -/
theorem parseMention_dedup_set (t : String) :
    (parseMention t).Nodup ∧
    (∀ id : String, id ∈ parseMention t ↔
      String.mk ('@' :: id.data) ∈ mentionOccurrences t) ∧
    (∀ id : String, String.mk ('@' :: id.data) ∈ mentionOccurrences t →
      (parseMention t).count id = 1) ∧
    (∀ t2 : String, (mentionOccurrences t).Perm (mentionOccurrences t2) →
      ∀ id : String, (id ∈ parseMention t ↔ id ∈ parseMention t2)) := by
  refine ⟨nodup_parseMention t, mem_parseMention t, fun id hmem => ?_, ?_⟩
  · exact List.count_eq_one_of_mem (nodup_parseMention t)
      ((mem_parseMention t id).mpr hmem)
  · intro t2 hperm id
    rw [mem_parseMention t id, mem_parseMention t2 id]
    exact hperm.mem_iff

/-- Witness for C9 at concrete inputs: the two texts below contain the same
two mentions in swapped order, and the third text mentions the same id
twice. -/
theorem parseMention_dedup_set_witness :
    (mentionOccurrences "hi @aaaaaaaaaaaaaaaaaaaaaaaa and @bbbbbbbbbbbbbbbbbbbbbbbb").Perm
      (mentionOccurrences "yo @bbbbbbbbbbbbbbbbbbbbbbbb then @aaaaaaaaaaaaaaaaaaaaaaaa") ∧
    (("aaaaaaaaaaaaaaaaaaaaaaaa" ∈
        parseMention "hi @aaaaaaaaaaaaaaaaaaaaaaaa and @bbbbbbbbbbbbbbbbbbbbbbbb") ↔
      ("aaaaaaaaaaaaaaaaaaaaaaaa" ∈
        parseMention "yo @bbbbbbbbbbbbbbbbbbbbbbbb then @aaaaaaaaaaaaaaaaaaaaaaaa")) ∧
    (parseMention "@cccccccccccccccccccccccc again @cccccccccccccccccccccccc").count
      "cccccccccccccccccccccccc" = 1 :=
  ⟨by decide,
   (parseMention_dedup_set
      "hi @aaaaaaaaaaaaaaaaaaaaaaaa and @bbbbbbbbbbbbbbbbbbbbbbbb").2.2.2
     "yo @bbbbbbbbbbbbbbbbbbbbbbbb then @aaaaaaaaaaaaaaaaaaaaaaaa" (by decide)
     "aaaaaaaaaaaaaaaaaaaaaaaa",
   (parseMention_dedup_set
      "@cccccccccccccccccccccccc again @cccccccccccccccccccccccc").2.2.1
     "cccccccccccccccccccccccc" (by decide)⟩

theorem createMessageFound_messages (m1 : Message) (conv? : Option Conversation)
    (st1 : ChatState) :
    ((createMessageFound m1 conv? st1).1).messages = st1.messages := by
  cases conv? with
  | none => rfl
  | some c => rfl

theorem createMessage_messages (b : Bool) (m : Message) (st : ChatState) :
    ((createMessage b m st).1).messages = st.messages ++ [savedMessage m] := by
  cases b with
  | true => rfl
  | false => exact createMessageFound_messages _ _ _

/-- **C10.** A message text with no `@`-hex-id occurrence produces an empty
`user_mentions` without failing: the `null` from `String.prototype.match`
flows through `_.uniq` as an empty collection, the saved message carries
`user_mentions = []`, and `createMessage` persists the message in every
branch (so no error path is introduced by the missing match). -/
theorem parseMention_no_match_empty :
    (∀ t : String, mentionOccurrences t = [] → parseMention t = []) ∧
    (∀ m : Message, mentionOccurrences m.text = [] →
      (savedMessage m).user_mentions = []) ∧
    (∀ (b : Bool) (m : Message) (st : ChatState),
      ((createMessage b m st).1).messages = st.messages ++ [savedMessage m]) := by
  have h1 : ∀ t : String, mentionOccurrences t = [] → parseMention t = [] := by
    intro t ht
    rw [parseMention_eq, ht]
    rfl
  exact ⟨h1, fun m hm => h1 m.text hm, createMessage_messages⟩

/-- Witness for C10 at a concrete input: a plain text with no mention. -/
theorem parseMention_no_match_empty_witness :
    mentionOccurrences "hello world" = [] ∧
    parseMention "hello world" = [] ∧
    (savedMessage { channel := "c", text := "hello world" }).user_mentions = [] ∧
    ((createMessage false { channel := "c", text := "hello world" } {}).1).messages =
      [savedMessage { channel := "c", text := "hello world" }] := by
  refine ⟨by decide, parseMention_no_match_empty.1 "hello world" (by decide),
    parseMention_no_match_empty.2.1 { channel := "c", text := "hello world" } (by decide),
    ?_⟩
  rw [parseMention_no_match_empty.2.2 false { channel := "c", text := "hello world" } {}]
  rfl

/-! ## Claim C1: deleting a conversation as a non-member -/

/-- C1 failing input: a channel whose only member is `"m"`, holding one
message, deleted by the non-member `"u"`. -/
def C1State : ChatState :=
  { conversations := [{ _id := "c", type := "channel", members := ["m"] }],
    messages := [{ _id := "m1", channel := "c", creator := "m", text := "hi" }] }

/-- **C1.** Deleting a conversation as a non-member leaves the conversation
document in place and reports no error (the member-filtered
`findOneAndRemove` matches nothing and yields `null`), but — contrary to
the claim — the unconditional `ChatMessage.remove({channel})` that follows
wipes the conversation's messages anyway. -/
theorem deleteConversation_nonmember_wipes_messages :
    ((deleteConversation "u" "c" C1State).1).conversations = C1State.conversations ∧
    (deleteConversation "u" "c" C1State).2 = none ∧
    ((deleteConversation "u" "c" C1State).1).messages = [] ∧
    C1State.messages ≠ [] := by
  decide

/-! ## Claim C2: the topic published by `updateTopic` -/

/-- The C2 conversation: committed topic value `"old"`. -/
def C2Conv : Conversation :=
  { _id := "c", type := "channel",
    topic := { value := "old", creator := "a", last_set := 1 } }

/-- C2 failing input: a conversation whose committed topic is `"old"`,
updated to `"new"`. -/
def C2State : ChatState :=
  { conversations := [C2Conv], messages := [] }

/-- **C2.** `updateTopic` commits the new topic value to the store, but the
synthetic system message is built from the *pre-update* document (the
`findByIdAndUpdate` carries no `{new: true}`): the published `topic.value`
is the old value — not the newly committed one — even though the message
text interpolates the caller's new value. -/
theorem updateTopic_publishes_stale_topic :
    ((getConversation "c"
        (updateTopic 9 "c" { value := "new", creator := "b", last_set := 2 }
          C2State).1).map (fun c => c.topic.value)) = some "new" ∧
    (((updateTopic 9 "c" { value := "new", creator := "b", last_set := 2 }
        C2State).2.1).map (fun msg => msg.topic.value)) = some "old" ∧
    (((updateTopic 9 "c" { value := "new", creator := "b", last_set := 2 }
        C2State).2.1).map TopicMessage.text) =
      some "set the channel topic: new" := by
  decide

/-! ## Claim C6: `updateConversation` and the new member's read counter -/

/-- The C6 conversation: member `"y"`, three messages, no read counters. -/
def C6Conv : Conversation :=
  { _id := "c", type := "channel", members := ["y"], numOfMessage := 3 }

/-- C6 failing input: the conversation above; the update adds `"x"` and
removes `"y"`. -/
def C6State : ChatState :=
  { conversations := [C6Conv], messages := [] }

/-- The C6 modifications `{newMembers: ["x"], deleteMembers: ["y"]}`. -/
def C6Mods : ConvModifications :=
  { newMembers := some ["x"], deleteMembers := some ["y"] }

/-- **C6.** `updateConversation(id, {newMembers: [x], deleteMembers: [y]})`
does end with `x` present and `y` absent, but `x`'s read counter is *not*
set to the message count: the helper receives
`mongoModifications.$addToSet.$each`, which is JS `undefined` because the
ids live under `.$addToSet.members.$each`, so the update writes the counter
field literally named `"undefined"` and leaves `x`'s counter at 0 while
`numOfMessage` is 3. -/
theorem updateConversation_undefined_counter :
    ((getConversation "c" (updateConversation "c" C6Mods C6State).1).map
      Conversation.members) = some ["x"] ∧
    ((getConversation "c" (updateConversation "c" C6Mods C6State).1).map
      (fun c => readedOf c "x")) = some 0 ∧
    ((getConversation "c" (updateConversation "c" C6Mods C6State).1).map
      (fun c => c.numOfMessage)) = some 3 ∧
    ((getConversation "c" (updateConversation "c" C6Mods C6State).1).map
      (fun c => c.numOfReadedMessage)) = some [("undefined", 3)] := by
  decide

/-! ## Claim C4: `getMessages` ordering and moderation filter -/

/-- **C4 (amended).** `getMessages` returns the selected page in
chronological (oldest-first) order even though the internal fetch is
newest-first, and every returned message is a non-moderated message of the
conversation — *regardless* of the query's `moderate` flag, which the
hard-coded Mongo filter `{channel, moderate: false}` ignores. -/
theorem getMessages_chronological (conversationId : String)
    (query : MessagesQuery) (st : ChatState) :
    List.Sorted msgChrono (getMessages conversationId query st) ∧
    ∀ msg ∈ getMessages conversationId query st,
      msg.moderate = false ∧ msg.channel = conversationId := by
  constructor
  · simp only [getMessages]
    apply List.pairwise_reverse.mpr
    have hs : List.Pairwise msgNewerFirst
        (List.insertionSort msgNewerFirst
          (st.messages.filter (fun msg =>
            msg.channel == conversationId && msg.moderate == false))) :=
      List.sorted_insertionSort msgNewerFirst _
    have h1 : List.Pairwise msgNewerFirst
        ((List.insertionSort msgNewerFirst
          (st.messages.filter (fun msg =>
            msg.channel == conversationId && msg.moderate == false))).drop
          (jsOffset query)) :=
      List.Pairwise.sublist (List.drop_sublist _ _) hs
    have h2 : List.Pairwise msgNewerFirst
        (((List.insertionSort msgNewerFirst
          (st.messages.filter (fun msg =>
            msg.channel == conversationId && msg.moderate == false))).drop
          (jsOffset query)).take (jsLimit query)) :=
      List.Pairwise.sublist (List.take_sublist _ _) h1
    exact h2.imp (fun h => h)
  · intro msg hmsg
    simp only [getMessages] at hmsg
    rw [List.mem_reverse] at hmsg
    have h1 := List.mem_of_mem_take hmsg
    have h2 := List.mem_of_mem_drop h1
    have h3 := (List.perm_insertionSort msgNewerFirst _).mem_iff.mp h2
    have h4 := List.mem_filter.mp h3
    simp only [Bool.and_eq_true, beq_iff_eq] at h4
    exact ⟨h4.2.2, h4.2.1⟩

/-- The moderated message of the C4 counterexample. -/
def C4ModeratedMsg : Message :=
  { _id := "m1", channel := "c", moderate := true }

/-- C4 counterexample state: one moderated message on conversation `"c"`. -/
def C4State : ChatState :=
  { conversations := [], messages := [C4ModeratedMsg] }

/-- **C4 (counterexample).** A query that explicitly requests moderated
messages still gets none back: the claim's "unless the query explicitly
requests moderated messages" escape hatch does not exist in the code. -/
theorem getMessages_ignores_moderate_flag :
    getMessages "c" { moderate := true, limit := none, offset := none }
      C4State = [] ∧
    C4ModeratedMsg ∈ C4State.messages ∧
    C4ModeratedMsg.moderate = true ∧
    C4ModeratedMsg.channel = "c" := by
  decide

/-- Two unmoderated messages of conversation `"c"`, newest one first in the
store, used by the C4 witness. -/
def C4Msg1 : Message :=
  { _id := "m1", channel := "c", timestamps := { creation := 5 } }

/-- The older message of the C4 witness state. -/
def C4Msg2 : Message :=
  { _id := "m2", channel := "c", timestamps := { creation := 3 } }

/-- The C4 witness state. -/
def C4WitnessState : ChatState :=
  { conversations := [], messages := [C4Msg1, C4Msg2] }

/-- Witness for the amended C4 theorem at a concrete input: the page is
chronologically sorted and the older message is part of it, non-moderated
and on the right conversation. -/
theorem getMessages_chronological_witness :
    List.Sorted msgChrono (getMessages "c" {} C4WitnessState) ∧
    (C4Msg2.moderate = false ∧ C4Msg2.channel = "c") :=
  ⟨(getMessages_chronological "c" {} C4WitnessState).1,
   (getMessages_chronological "c" {} C4WitnessState).2 C4Msg2 (by decide)⟩

/-! ## Claim C5: monotone read counters -/

theorem getConversation_id {cid : String} {st : ChatState} {c : Conversation}
    (h : getConversation cid st = some c) : c._id = cid := by
  have hp := List.find?_some h
  simpa using hp

theorem getConversation_updateConvState (cid : String)
    (f : Conversation → Conversation) (hf : ∀ c, (f c)._id = c._id)
    (st : ChatState) :
    getConversation cid (updateConvState cid f st) =
      (getConversation cid st).map f := by
  unfold getConversation updateConvState
  exact find?_updateWhere _ f
    (fun x hx => by
      simp only [beq_iff_eq] at hx ⊢
      rw [hf x, hx])
    st.conversations

theorem makeAllHelper_result (userIds : JsVal) (c : Conversation) (st : ChatState) :
    (makeAllMessageReadedForAnUserHelper userIds (some c) st).1 =
      updateConvState c._id
        (fun conv => { conv with
          numOfReadedMessage :=
            applyMax (jsUserIdKeys userIds) c.numOfMessage conv.numOfReadedMessage })
        st := rfl

theorem makeAllHelper_getConversation (st : ChatState) (cid : String)
    (c : Conversation) (hc : getConversation cid st = some c) (userIds : JsVal) :
    getConversation cid ((makeAllMessageReadedForAnUserHelper userIds (some c) st).1) =
      some { c with
        numOfReadedMessage :=
          applyMax (jsUserIdKeys userIds) c.numOfMessage c.numOfReadedMessage } := by
  have hid : c._id = cid := getConversation_id hc
  rw [makeAllHelper_result, hid,
    getConversation_updateConvState cid
      (fun conv => { conv with
        numOfReadedMessage :=
          applyMax (jsUserIdKeys userIds) c.numOfMessage conv.numOfReadedMessage })
      (fun x => rfl) st,
    hc]
  simp [hid]

/-- **C5.** After `markAllMessagesAsRead` (the service's
`makeAllMessageReadedForAnUser`), the stored read counter of each targeted
user equals `max(previous value, conversation.numOfMessage)` — both for a
single user id and for a list of user ids updated at once — and no user's
read counter ever decreases. -/
theorem makeAllMessageReadedForAnUser_max (st : ChatState) (cid : String)
    (c : Conversation) (hc : getConversation cid st = some c) :
    (∀ u : String,
      (getConversation cid ((makeAllMessageReadedForAnUser (.str u) cid st).1)).map
        (fun c1 => readedOf c1 u) = some (max (readedOf c u) c.numOfMessage)) ∧
    (∀ us : List String, ∀ u ∈ us,
      (getConversation cid
          ((makeAllMessageReadedForAnUser (.arr (us.map JsVal.str)) cid st).1)).map
        (fun c1 => readedOf c1 u) = some (max (readedOf c u) c.numOfMessage)) ∧
    (∀ u v : String, ∀ c1 : Conversation,
      getConversation cid ((makeAllMessageReadedForAnUser (.str v) cid st).1) = some c1 →
      readedOf c u ≤ readedOf c1 u) := by
  have hwrap : ∀ userIds : JsVal,
      makeAllMessageReadedForAnUser userIds cid st =
        makeAllMessageReadedForAnUserHelper userIds (some c) st := by
    intro userIds
    unfold makeAllMessageReadedForAnUser
    rw [hc]
  have hstr : ∀ u : String, jsUserIdKeys (JsVal.str u) = [u] := fun _ => rfl
  have harr : ∀ us : List String, jsUserIdKeys (JsVal.arr (us.map JsVal.str)) = us := by
    intro us
    show (us.map JsVal.str).map jsToString = us
    rw [List.map_map]
    have hco : (jsToString ∘ JsVal.str) = fun u : String => u := by
      funext x; rfl
    rw [hco, List.map_id']
  refine ⟨?_, ?_, ?_⟩
  · intro u
    rw [hwrap, makeAllHelper_getConversation st cid c hc (.str u), hstr u]
    show some (lookupD u (applyMax [u] c.numOfMessage c.numOfReadedMessage)) = _
    rw [lookupD_applyMax]
    simp [readedOf]
  · intro us u hu
    rw [hwrap, makeAllHelper_getConversation st cid c hc (.arr (us.map JsVal.str)),
      harr us]
    show some (lookupD u (applyMax us c.numOfMessage c.numOfReadedMessage)) = _
    rw [lookupD_applyMax]
    simp [readedOf, hu]
  · intro u v c1 hc1
    rw [hwrap, makeAllHelper_getConversation st cid c hc (.str v), hstr v] at hc1
    cases hc1
    show readedOf c u ≤ lookupD u (applyMax [v] c.numOfMessage c.numOfReadedMessage)
    rw [lookupD_applyMax]
    by_cases huv : u = v
    · rw [if_pos (by simp [huv])]
      exact Nat.le_max_left _ _
    · rw [if_neg (by simp [huv])]
      exact Nat.le_refl _

/-- The C5 witness conversation: 4 messages, user `"u"` has read 2. -/
def C5Conv : Conversation :=
  { _id := "c", type := "channel", members := ["u"], numOfMessage := 4,
    numOfReadedMessage := [("u", 2)] }

/-- The C5 witness state. -/
def C5State : ChatState :=
  { conversations := [C5Conv], messages := [] }

/-- Witness for C5 at a concrete input: marking all messages read for `"u"`
raises the stored counter from 2 to `max 2 4`. -/
theorem makeAllMessageReadedForAnUser_max_witness :
    (getConversation "c" ((makeAllMessageReadedForAnUser (.str "u") "c" C5State).1)).map
      (fun c1 => readedOf c1 "u") = some (max (readedOf C5Conv "u") C5Conv.numOfMessage) :=
  (makeAllMessageReadedForAnUser_max C5State "c" C5Conv (by decide)).1 "u"

/-! ## Claim C3: `createMessage` and the conversation summary -/

theorem createMessage_false_eq (m : Message) (st : ChatState) :
    createMessage false m st =
      createMessageFound (savedMessage m)
        (getConversation (savedMessage m).channel
          { st with messages := st.messages ++ [savedMessage m] })
        { st with messages := st.messages ++ [savedMessage m] } := rfl

theorem createMessageFound_some (m1 : Message) (c : Conversation)
    (st1 : ChatState) :
    createMessageFound m1 (some c) st1 =
      ((makeAllMessageReadedForAnUserHelper (JsVal.str m1.creator) (some c)
        (updateConvState m1.channel (summaryUpdate m1) st1)).1,
       Except.ok m1) := rfl

theorem makeAllHelper_getConversation2 (st : ChatState) (cid : String)
    (cGiven cStored : Conversation) (hid : cGiven._id = cid)
    (hc : getConversation cid st = some cStored) (userIds : JsVal) :
    getConversation cid
        ((makeAllMessageReadedForAnUserHelper userIds (some cGiven) st).1) =
      some { cStored with
        numOfReadedMessage :=
          applyMax (jsUserIdKeys userIds) cGiven.numOfMessage
            cStored.numOfReadedMessage } := by
  rw [makeAllHelper_result, hid,
    getConversation_updateConvState cid
      (fun conv => { conv with
        numOfReadedMessage :=
          applyMax (jsUserIdKeys userIds) cGiven.numOfMessage
            conv.numOfReadedMessage })
      (fun x => rfl) st,
    hc]
  rfl

/-- **C3.** For every message successfully created on conversation `c`,
`c.numOfMessage` increases by exactly 1 and `c.last_message` becomes
`{text, date: timestamps.creation, creator, user_mentions}` of the created
message; and a failure of the conversation update does not abort or undo
the persistence of the message itself — the message is appended to the
store in every branch, and the failing branch leaves the conversation
collection untouched. -/
theorem createMessage_updates_conversation (m : Message) (st : ChatState)
    (c : Conversation)
    (hc : getConversation (savedMessage m).channel st = some c) :
    ((getConversation (savedMessage m).channel ((createMessage false m st).1)).map
      (fun c1 => c1.numOfMessage)) = some (c.numOfMessage + 1) ∧
    ((getConversation (savedMessage m).channel ((createMessage false m st).1)).map
      (fun c1 => c1.last_message)) =
      some
        { text := (savedMessage m).text,
          date := (savedMessage m).timestamps.creation,
          creator := (savedMessage m).creator,
          user_mentions := (savedMessage m).user_mentions } ∧
    (createMessage false m st).2 = Except.ok (savedMessage m) ∧
    (∀ b : Bool, ((createMessage b m st).1).messages =
      st.messages ++ [savedMessage m]) ∧
    ((createMessage true m st).1).conversations = st.conversations := by
  have hst1 : getConversation (savedMessage m).channel
      { st with messages := st.messages ++ [savedMessage m] } = some c := hc
  have hsum : getConversation (savedMessage m).channel
      (updateConvState (savedMessage m).channel (summaryUpdate (savedMessage m))
        { st with messages := st.messages ++ [savedMessage m] }) =
      some (summaryUpdate (savedMessage m) c) := by
    rw [getConversation_updateConvState _ (summaryUpdate (savedMessage m))
      (fun x => rfl) _, hst1]
    rfl
  have hfinal : getConversation (savedMessage m).channel
      ((createMessage false m st).1) =
      some { summaryUpdate (savedMessage m) c with
        numOfReadedMessage :=
          applyMax (jsUserIdKeys (JsVal.str (savedMessage m).creator))
            c.numOfMessage
            ((summaryUpdate (savedMessage m) c).numOfReadedMessage) } := by
    rw [createMessage_false_eq, hst1, createMessageFound_some]
    show getConversation (savedMessage m).channel
      ((makeAllMessageReadedForAnUserHelper (JsVal.str (savedMessage m).creator)
        (some c)
        (updateConvState (savedMessage m).channel (summaryUpdate (savedMessage m))
          { st with messages := st.messages ++ [savedMessage m] })).1) = _
    exact makeAllHelper_getConversation2 _ _ c (summaryUpdate (savedMessage m) c)
      (getConversation_id hc) hsum (JsVal.str (savedMessage m).creator)
  refine ⟨?_, ?_, ?_, fun b => createMessage_messages b m st, rfl⟩
  · rw [hfinal]; rfl
  · rw [hfinal]; rfl
  · rw [createMessage_false_eq, hst1, createMessageFound_some]

/-- The C3 witness conversation. -/
def C3Conv : Conversation :=
  { _id := "c", type := "channel", members := ["a"], numOfMessage := 1 }

/-- The C3 witness state. -/
def C3State : ChatState :=
  { conversations := [C3Conv], messages := [] }

/-- The C3 witness message. -/
def C3Msg : Message :=
  { _id := "m9", channel := "c", creator := "a", text := "hi",
    timestamps := { creation := 7 } }

/-- Witness for C3 at a concrete input: creating a message bumps the
conversation's `numOfMessage` from 1 to 2. -/
theorem createMessage_updates_conversation_witness :
    ((getConversation (savedMessage C3Msg).channel
        ((createMessage false C3Msg C3State).1)).map
      (fun c1 => c1.numOfMessage)) = some (C3Conv.numOfMessage + 1) :=
  (createMessage_updates_conversation C3Msg C3State C3Conv (by decide)).1

/-! ## Claim C8: `findConversation` option validation -/

theorem findConversation_error_iff (o : FindOptions) (st : ChatState)
    (e : JsError) :
    findConversation o st = .error e ↔ buildFindRequest o = .error e := by
  unfold findConversation
  cases h : buildFindRequest o <;> simp

theorem buildFindRequest_jsError_iff (o : FindOptions) :
    (∃ msg, buildFindRequest o = .error (.jsError msg)) ↔
      ((o.exactMembersMatch = true ∧ o.members = none) ∨
       (o.ignoreMemberFilterForChannel = true ∧ o.members = none)) := by
  unfold buildFindRequest
  by_cases hA : o.exactMembersMatch && o.members.isNone
  · rw [if_pos hA]
    simp only [Bool.and_eq_true, Option.isNone_iff_eq_none] at hA
    constructor
    · intro _
      exact Or.inl hA
    · intro _
      exact ⟨_, rfl⟩
  · rw [if_neg hA]
    by_cases hB : o.ignoreMemberFilterForChannel && o.members.isNone
    · rw [if_pos hB]
      simp only [Bool.and_eq_true, Option.isNone_iff_eq_none] at hB
      constructor
      · intro _
        exact Or.inr hB
      · intro _
        exact ⟨_, rfl⟩
    · rw [if_neg hB]
      simp only [Bool.and_eq_true, Option.isNone_iff_eq_none, not_and] at hA hB
      constructor
      · rintro ⟨msg, hmsg⟩
        exfalso
        split at hmsg
        · split at hmsg
          · cases hmsg
          · cases hmsg
        · split at hmsg
          · cases hmsg
          · cases hmsg
      · rintro (⟨h1, h2⟩ | ⟨h1, h2⟩)
        · exact absurd h2 (hA h1)
        · exact absurd h2 (hB h1)

/-- **C8.** `findConversation` signals the configuration error (`throw new
Error(...)`) exactly when `exactMembersMatch` or
`ignoreMemberFilterForChannel` is set without a members filter; any error it
raises is raised synchronously while building the request, before any store
access, so it does not depend on the store contents.  (No other option
combination raises *this* error; the one other synchronous failure, the
`request.members.$size` write on the `$or`-wrapped request, surfaces as a
`TypeError`, not as the configuration error.) -/
theorem findConversation_config_error (o : FindOptions) :
    (∀ st : ChatState,
      (∃ msg, findConversation o st = .error (.jsError msg)) ↔
        ((o.exactMembersMatch = true ∧ o.members = none) ∨
         (o.ignoreMemberFilterForChannel = true ∧ o.members = none))) ∧
    (∀ (st1 st2 : ChatState) (e : JsError),
      findConversation o st1 = .error e → findConversation o st2 = .error e) := by
  constructor
  · intro st
    rw [show (∃ msg, findConversation o st = .error (.jsError msg)) ↔
        (∃ msg, buildFindRequest o = .error (.jsError msg)) from
      exists_congr (fun msg => findConversation_error_iff o st (.jsError msg))]
    exact buildFindRequest_jsError_iff o
  · intro st1 st2 e h
    rw [findConversation_error_iff] at h
    rw [findConversation_error_iff]
    exact h

/-- Witness for C8 at a concrete input: `exactMembersMatch` without members
yields the configuration error on any store (here transported from the
empty store to the C1 store by the store-independence part). -/
theorem findConversation_config_error_witness :
    findConversation
      { type := none, ignoreMemberFilterForChannel := false,
        exactMembersMatch := true, members := none, name := .undefined,
        moderate := false } C1State =
      .error (.jsError
        "Could not set exactMembersMatch to true without providing members") :=
  (findConversation_config_error _).2 {} C1State
    (.jsError "Could not set exactMembersMatch to true without providing members")
    (by rfl)

/-! ## Claim C7: the read-counter invariant -/

theorem updateWhere_of_find?_none {α : Type} {p : α → Bool} {f : α → α} :
    ∀ {l : List α}, l.find? p = none → updateWhere p f l = l := by
  intro l
  induction l with
  | nil => intro _; rfl
  | cons c rest ih =>
    intro h
    by_cases hpc : p c
    · rw [List.find?_cons_of_pos _ hpc] at h
      cases h
    · rw [List.find?_cons_of_neg _ (by simp [hpc])] at h
      simp [updateWhere, hpc, ih h]

theorem lookupD_le (u : String) (B : Nat) :
    ∀ m : List (String × Nat), (∀ kv ∈ m, kv.2 ≤ B) → lookupD u m ≤ B := by
  intro m
  induction m with
  | nil => intro _; exact Nat.zero_le B
  | cons kv rest ih =>
    intro hb
    obtain ⟨k, v⟩ := kv
    unfold lookupD
    by_cases hk : k = u
    · rw [if_pos hk]
      exact hb (k, v) (List.mem_cons_self _ _)
    · rw [if_neg hk]
      exact ih (fun kv' hm => hb kv' (List.mem_cons_of_mem _ hm))

theorem stateInvariantAll_imp (st : ChatState) (h : stateInvariantAll st) :
    stateInvariant st := by
  intro c hc u _
  exact lookupD_le u c.numOfMessage c.numOfReadedMessage (h c hc)

theorem stateInvariantAll_updateConvState (cid : String)
    (f : Conversation → Conversation) (st : ChatState)
    (hst : stateInvariantAll st)
    (hf : ∀ c, getConversation cid st = some c → convInvariantAll c →
      convInvariantAll (f c)) :
    stateInvariantAll (updateConvState cid f st) := by
  intro x hx
  have hx1 : x ∈ updateWhere (fun c => c._id == cid) f st.conversations := hx
  cases hfind : st.conversations.find? (fun c => c._id == cid) with
  | none =>
    rw [updateWhere_of_find?_none hfind] at hx1
    exact hst x hx1
  | some c0 =>
    rcases mem_updateWhere_find? hfind hx1 with h | h
    · exact hst x h
    · rw [h]
      exact hf c0 hfind (hst c0 (List.mem_of_find?_eq_some hfind))

theorem stateInvariantAll_helper (userIds : JsVal)
    (conv? : Option Conversation) (st : ChatState)
    (hst : stateInvariantAll st)
    (hn : ∀ c, conv? = some c → ∀ c1, getConversation c._id st = some c1 →
      c.numOfMessage ≤ c1.numOfMessage) :
    stateInvariantAll ((makeAllMessageReadedForAnUserHelper userIds conv? st).1) := by
  cases conv? with
  | none => exact hst
  | some c =>
    rw [makeAllHelper_result]
    apply stateInvariantAll_updateConvState _ _ _ hst
    intro c1 hc1 hinv kv hkv
    exact mem_applyMax_le c1.numOfMessage _ _ _ hinv (hn c rfl c1 hc1) kv hkv

theorem stateInvariantAll_makeAllRead (userIds : JsVal) (cid : String)
    (st : ChatState) (hst : stateInvariantAll st) :
    stateInvariantAll ((makeAllMessageReadedForAnUser userIds cid st).1) := by
  unfold makeAllMessageReadedForAnUser
  apply stateInvariantAll_helper _ _ _ hst
  intro c hc c1 hc1
  have hid : c._id = cid := getConversation_id hc
  rw [hid, hc] at hc1
  cases hc1
  exact Nat.le_refl _

theorem stateInvariantAll_addMember (cid uid : String) (st : ChatState)
    (hst : stateInvariantAll st) :
    stateInvariantAll ((addMemberToConversation cid uid st).1) := by
  unfold addMemberToConversation
  cases hc : getConversation cid st with
  | none => exact hst
  | some c =>
    apply stateInvariantAll_helper _ _ _ ?_ ?_
    · apply stateInvariantAll_updateConvState _ _ _ hst
      intro c1 _ hinv kv hkv
      exact hinv kv hkv
    · intro c2 hc2 c1 hc1
      cases hc2
      have hid : c._id = cid := getConversation_id hc
      rw [hid,
        getConversation_updateConvState cid
          (fun conv => { conv with
            members := if conv.members.contains uid then conv.members
              else conv.members ++ [uid] })
          (fun x => rfl) st,
        hc] at hc1
      cases hc1
      exact Nat.le_refl _

theorem stateInvariantAll_createMessage (b : Bool) (m : Message)
    (st : ChatState) (hst : stateInvariantAll st) :
    stateInvariantAll ((createMessage b m st).1) := by
  have hst1 : stateInvariantAll
      { st with messages := st.messages ++ [savedMessage m] } := hst
  cases b with
  | true => exact hst1
  | false =>
    rw [createMessage_false_eq]
    cases hc : getConversation (savedMessage m).channel
        { st with messages := st.messages ++ [savedMessage m] } with
    | none => exact hst1
    | some c =>
      rw [createMessageFound_some]
      show stateInvariantAll ((makeAllMessageReadedForAnUserHelper
        (JsVal.str (savedMessage m).creator) (some c)
        (updateConvState (savedMessage m).channel (summaryUpdate (savedMessage m))
          { st with messages := st.messages ++ [savedMessage m] })).1)
      apply stateInvariantAll_helper _ _ _ ?_ ?_
      · apply stateInvariantAll_updateConvState _ _ _ hst1
        intro c1 _ hinv kv hkv
        exact Nat.le_trans (hinv kv hkv) (Nat.le_succ _)
      · intro c2 hc2 c1 hc1
        cases hc2
        have hid : c._id = (savedMessage m).channel := getConversation_id hc
        rw [hid,
          getConversation_updateConvState _ (summaryUpdate (savedMessage m))
            (fun x => rfl) _,
          hc] at hc1
        cases hc1
        exact Nat.le_succ _

theorem applySetFields_proj (mods : ConvModifications) (c : Conversation) :
    (applySetFields mods c).numOfReadedMessage = c.numOfReadedMessage ∧
    (applySetFields mods c).numOfMessage = c.numOfMessage ∧
    (applySetFields mods c)._id = c._id := by
  unfold applySetFields
  cases hn : mods.name with
  | none =>
    cases ha : mods.avatar with
    | none => exact ⟨rfl, rfl, rfl⟩
    | some a => by_cases h : a = "" <;> simp [h]
  | some n =>
    cases ha : mods.avatar with
    | none => by_cases h : n = "" <;> simp [h]
    | some a => by_cases h1 : n = "" <;> by_cases h2 : a = "" <;> simp [h1, h2]

theorem pullWrite_proj (mods : ConvModifications) (c : Conversation) :
    (pullWrite mods c).numOfReadedMessage = c.numOfReadedMessage ∧
    (pullWrite mods c).numOfMessage = c.numOfMessage ∧
    (pullWrite mods c)._id = c._id := by
  unfold pullWrite
  by_cases h : hasDeleteMembers mods <;> simp [h]

theorem addWrite_proj (mods : ConvModifications) (c : Conversation) :
    (addWrite mods c).numOfReadedMessage = c.numOfReadedMessage ∧
    (addWrite mods c).numOfMessage = c.numOfMessage ∧
    (addWrite mods c)._id = c._id := by
  unfold addWrite
  split <;> exact ⟨rfl, rfl, rfl⟩

theorem firstWrite_proj (mods : ConvModifications) (c : Conversation) :
    (firstWrite mods c).numOfReadedMessage = c.numOfReadedMessage ∧
    (firstWrite mods c).numOfMessage = c.numOfMessage ∧
    (firstWrite mods c)._id = c._id := by
  unfold firstWrite
  refine ⟨?_, ?_, ?_⟩
  · rw [(applySetFields_proj _ _).1, (addWrite_proj _ _).1, (pullWrite_proj _ _).1]
  · rw [(applySetFields_proj _ _).2.1, (addWrite_proj _ _).2.1,
      (pullWrite_proj _ _).2.1]
  · rw [(applySetFields_proj _ _).2.2, (addWrite_proj _ _).2.2,
      (pullWrite_proj _ _).2.2]

theorem stateInvariantAll_updateConversationDone (mods : ConvModifications)
    (conv? : Option Conversation) (st1 : ChatState)
    (hst : stateInvariantAll st1)
    (hn : ∀ c, conv? = some c → ∀ c1, getConversation c._id st1 = some c1 →
      c.numOfMessage ≤ c1.numOfMessage) :
    stateInvariantAll ((updateConversationDone mods conv? st1).1) := by
  cases conv? with
  | none => exact hst
  | some conv =>
    show stateInvariantAll ((if hasNewMembers mods then
        makeAllMessageReadedForAnUserHelper
          ((addToSetValue mods).getField "$each") (some conv) st1
      else (st1, .ok (some conv))).1)
    by_cases hnew : hasNewMembers mods
    · rw [if_pos hnew]
      apply stateInvariantAll_helper _ _ _ hst
      intro c hc
      cases hc
      exact hn conv rfl
    · rw [if_neg hnew]
      exact hst

theorem stateInvariantAll_updateConversation (cid : String)
    (mods : ConvModifications) (st : ChatState) (hst : stateInvariantAll st) :
    stateInvariantAll ((updateConversation cid mods st).1) := by
  unfold updateConversation
  cases hc : getConversation cid st with
  | none => exact hst
  | some c =>
    have hfw : ∀ c1, convInvariantAll c1 → convInvariantAll (firstWrite mods c1) := by
      intro c1 h kv hkv
      rw [(firstWrite_proj mods c1).1] at hkv
      have := h kv hkv
      rw [(firstWrite_proj mods c1).2.1]
      exact this
    have hst1 : stateInvariantAll (updateConvState cid (firstWrite mods) st) :=
      stateInvariantAll_updateConvState cid _ st hst (fun c1 _ => hfw c1)
    have hget1 : getConversation cid (updateConvState cid (firstWrite mods) st) =
        some (firstWrite mods c) := by
      rw [getConversation_updateConvState cid (firstWrite mods)
        (fun x => (firstWrite_proj mods x).2.2) st, hc]
      rfl
    show stateInvariantAll
      ((if hasNewMembers mods && hasDeleteMembers mods then
          updateConversationDone mods
            (getConversation cid (updateConvState cid (firstWrite mods) st))
            (updateConvState cid (secondWrite mods)
              (updateConvState cid (firstWrite mods) st))
        else
          updateConversationDone mods (some c)
            (updateConvState cid (firstWrite mods) st)).1)
    by_cases hsplit : hasNewMembers mods && hasDeleteMembers mods
    · rw [if_pos hsplit]
      apply stateInvariantAll_updateConversationDone
      · -- the second write also preserves the strengthened invariant
        apply stateInvariantAll_updateConvState _ _ _ hst1
        intro c1 _ hinv kv hkv
        exact hinv kv hkv
      · intro c2 hc2 c1 hc1
        rw [hget1] at hc2
        cases hc2
        have hid : (firstWrite mods c)._id = cid := by
          rw [(firstWrite_proj mods c).2.2]
          exact getConversation_id hc
        rw [hid,
          getConversation_updateConvState cid (secondWrite mods)
            (fun x => rfl) _,
          hget1] at hc1
        cases hc1
        show (firstWrite mods c).numOfMessage ≤
          (secondWrite mods (firstWrite mods c)).numOfMessage
        exact Nat.le_refl _
    · rw [if_neg hsplit]
      apply stateInvariantAll_updateConversationDone _ _ _ hst1
      intro c2 hc2 c1 hc1
      cases hc2
      have hid : c._id = cid := getConversation_id hc
      rw [hid, hget1] at hc1
      cases hc1
      show c.numOfMessage ≤ (firstWrite mods c).numOfMessage
      rw [(firstWrite_proj mods c).2.1]

/-- The C7 counterexample conversation: nobody is a member, one message,
and a stale read-counter entry of 5 left over for the non-member `"u"`
(membership removal via `updateConversation` does not `$unset` counters). -/
def C7Conv : Conversation :=
  { _id := "c", type := "channel", members := [], numOfMessage := 1,
    numOfReadedMessage := [("u", 5)] }

/-- The C7 counterexample state. -/
def C7State : ChatState :=
  { conversations := [C7Conv], messages := [] }

/-- **C7 (counterexample).** The claim's member-only invariant
`numOfReadedMessage[u] ≤ numOfMessage` for every member `u` is *not*
preserved by `addMemberToConversation`: starting from a state that
satisfies it (the oversized counter entry belongs to a non-member), adding
that user as a member produces a member whose counter (5) exceeds
`numOfMessage` (1), because `$max` can never lower the stale value. -/
theorem stateInvariant_not_preserved_by_addMember :
    stateInvariant C7State ∧
    ¬ stateInvariant ((addMemberToConversation "c" "u" C7State).1) := by
  decide

/-- **C7 (amended).** The strengthened data-model invariant — *every* entry
of `numOfReadedMessage`, whatever its key, is at most `numOfMessage` — is
preserved by `createMessage`, `markAllMessagesAsRead`
(`makeAllMessageReadedForAnUser`), `addMemberToConversation` and
`updateConversation`, and it implies the claim's member-only invariant
`numOfReadedMessage[u] ≤ numOfMessage` for every member `u` of every
conversation. -/
theorem invariant_preservation :
    (∀ (b : Bool) (m : Message) (st : ChatState), stateInvariantAll st →
      stateInvariantAll ((createMessage b m st).1)) ∧
    (∀ (userIds : JsVal) (cid : String) (st : ChatState), stateInvariantAll st →
      stateInvariantAll ((makeAllMessageReadedForAnUser userIds cid st).1)) ∧
    (∀ (cid uid : String) (st : ChatState), stateInvariantAll st →
      stateInvariantAll ((addMemberToConversation cid uid st).1)) ∧
    (∀ (cid : String) (mods : ConvModifications) (st : ChatState),
      stateInvariantAll st →
      stateInvariantAll ((updateConversation cid mods st).1)) ∧
    (∀ st : ChatState, stateInvariantAll st → stateInvariant st) :=
  ⟨stateInvariantAll_createMessage, stateInvariantAll_makeAllRead,
   stateInvariantAll_addMember, stateInvariantAll_updateConversation,
   stateInvariantAll_imp⟩

/-- Witness for the amended C7 theorem at a concrete input: the C5 state
satisfies the strengthened invariant, and it still does after adding a
member, after creating a message, and after an update; it also satisfies
the member-only invariant. -/
theorem invariant_preservation_witness :
    stateInvariantAll C5State ∧
    stateInvariantAll ((addMemberToConversation "c" "u" C5State).1) ∧
    stateInvariantAll ((createMessage false C3Msg C5State).1) ∧
    stateInvariantAll ((updateConversation "c" C6Mods C5State).1) ∧
    stateInvariant C5State :=
  ⟨by decide,
   invariant_preservation.2.2.1 "c" "u" C5State (by decide),
   invariant_preservation.1 false C3Msg C5State (by decide),
   invariant_preservation.2.2.2.1 "c" C6Mods C5State (by decide),
   invariant_preservation.2.2.2.2 C5State (by decide)⟩
